import Mathlib

/-
  Verification of the position risk-management core of a crypto trading bot.

  The development shallowly embeds the Go sources
    internal/executors/trailing_stop_calculator.go
    internal/executors/stoploss_manager.go
    internal/executors/takeprofit_manager.go
  into Lean:
  prices and quantities become exact rationals, the exchange gateway
  becomes explicit outcome records supplied to each operation, and the
  monitoring loop becomes a step function over an explicit operation list.
  Methods of the Position type (whose defining file is not among the
  provided sources) are modelled from the specification and marked as such.
-/

namespace TradingBot

/-- Position side: the Go code stores this as the string values
long / short and treats every non-long side as short, so a
two-valued type is an exact model. -/
inductive Side
  | long
  | short
deriving DecidableEq

/-- Embeds TrailingStopConfig of trailing_stop_calculator.go. -/
structure TrailingStopConfig where
  initialATRPeriod : Nat
  initialATRMultiplier : ℚ
  trailingATRPeriod : Nat
  trailingATRMultiplier : ℚ
  updateThreshold : ℚ
  minStopDistance : ℚ
  maxStopDistance : ℚ
deriving DecidableEq

/-- The DEFAULT entry of getDefaultConfigs. -/
def defaultConfig : TrailingStopConfig :=
  ⟨3, 2.5, 3, 2.5, 0.3, 0.5, 5.0⟩

/-- The BTCUSDT entry of getDefaultConfigs. -/
def btcusdtConfig : TrailingStopConfig :=
  ⟨3, 2.5, 3, 2.5, 0.3, 0.5, 6.0⟩

/-- The ETHUSDT entry of getDefaultConfigs. -/
def ethusdtConfig : TrailingStopConfig :=
  ⟨3, 2.5, 3, 2.5, 0.3, 0.5, 6.0⟩

/-- The SOLUSDT entry of getDefaultConfigs. -/
def solusdtConfig : TrailingStopConfig :=
  ⟨3, 2.5, 3, 2.5, 0.3, 0.5, 8.0⟩

/-- The BNBUSDT entry of getDefaultConfigs. -/
def bnbusdtConfig : TrailingStopConfig :=
  ⟨3, 2.5, 3, 2.5, 0.3, 0.5, 7.0⟩

/-- The XRPUSDT entry of getDefaultConfigs. -/
def xrpusdtConfig : TrailingStopConfig :=
  ⟨3, 2.5, 3, 2.5, 0.3, 0.5, 8.0⟩

def btcKey : String := "BTCUSDT"

def ethKey : String := "ETHUSDT"

def solKey : String := "SOLUSDT"

def bnbKey : String := "BNBUSDT"

def xrpKey : String := "XRPUSDT"

def defaultKey : String := "DEFAULT"

/-- Embeds the map built by getDefaultConfigs (as an association list). -/
def configEntries : List (String × TrailingStopConfig) :=
  [(btcKey, btcusdtConfig), (ethKey, ethusdtConfig), (solKey, solusdtConfig),
   (bnbKey, bnbusdtConfig), (xrpKey, xrpusdtConfig), (defaultKey, defaultConfig)]

/-- Embeds the symbol normalization done in GetConfig:
strings.ReplaceAll(symbol, "/", "") followed by strings.ToUpper
(over the ASCII symbols in use, removing every slash character and
uppercasing each remaining character). -/
def normalizeSymbol (s : String) : String :=
  String.mk ((s.data.filter (fun c => c ≠ '/')).map Char.toUpper)

/-- Embeds TrailingStopCalculator.GetConfig: look up the normalized
symbol, falling back to the DEFAULT configuration. -/
def getConfig (symbol : String) : TrailingStopConfig :=
  match configEntries.find? (fun p => p.1 == normalizeSymbol symbol) with
  | Option.some p => p.2
  | Option.none => defaultConfig

/-- Embeds TrailingStopCalculator.CalculateInitialStop. -/
def calculateInitialStop (symbol : String) (entryPrice atr : ℚ) (side : Side) : ℚ :=
  let config := getConfig symbol
  let stopDistance := config.initialATRMultiplier * atr
  match side with
  | Side.long => entryPrice - stopDistance
  | Side.short => entryPrice + stopDistance

/-- Embeds TrailingStopCalculator.CalculateTrailingStop (for a short
position the highestPrice argument carries the lowest price since
entry, exactly as in the source). -/
def calculateTrailingStop (symbol : String) (highestPrice atr : ℚ) (side : Side) : ℚ :=
  let config := getConfig symbol
  let stopDistance := config.trailingATRMultiplier * atr
  match side with
  | Side.long => highestPrice - stopDistance
  | Side.short => highestPrice + stopDistance

/-- Embeds TrailingStopCalculator.IsValidUpdate (strict favorable-direction
check). -/
def isValidUpdate (side : Side) (oldStopLoss newStopLoss : ℚ) : Bool :=
  match side with
  | Side.long => decide (newStopLoss > oldStopLoss)
  | Side.short => decide (newStopLoss < oldStopLoss)

/-- Embeds TrailingStopCalculator.ShouldUpdate: the absolute percentage
change of the stop must reach the configured threshold. -/
def shouldUpdate (symbol : String) (oldStopLoss newStopLoss : ℚ) : Bool :=
  let config := getConfig symbol
  let changePercent := |(newStopLoss - oldStopLoss) / oldStopLoss| * 100
  decide (changePercent ≥ config.updateThreshold)

/-- Embeds TrailingStopCalculator.ValidateStopDistance. -/
def validateStopDistance (symbol : String) (entryPrice stopPrice : ℚ) (side : Side) : Bool :=
  let config := getConfig symbol
  let distancePercent : ℚ :=
    match side with
    | Side.long => (entryPrice - stopPrice) / entryPrice * 100
    | Side.short => (stopPrice - entryPrice) / entryPrice * 100
  decide (distancePercent ≥ config.minStopDistance ∧ distancePercent ≤ config.maxStopDistance)

/-- One entry of the stop-loss history log: old and new stop, the reason
string and the source tag (wall-clock timestamps are abstracted away). -/
structure StopLossEvent where
  oldStop : ℚ
  newStop : ℚ
  reason : String
  source : String
deriving DecidableEq

/-- Embeds TakeProfitLevel of takeprofit_manager.go (ExecutedTime is
abstracted away; ExecutedPrice is kept). -/
structure TakeProfitLevel where
  level : Nat
  riskReward : ℚ
  percentage : ℚ
  targetPrice : ℚ
  executed : Bool
  executedPrice : ℚ
  newStopLoss : ℚ
deriving DecidableEq

/-- Embeds TakeProfitConfig of takeprofit_manager.go. -/
structure TakeProfitConfig where
  enabled : Bool
  levels : List TakeProfitLevel
deriving DecidableEq

/-- Embeds the Position record managed by StopLossManager and
TakeProfitManager.  The highestPrice field stores the favorable extreme
price: highest since entry for a long position, lowest for a short one,
exactly as the source comments describe. -/
structure Position where
  symbol : String
  side : Side
  entryPrice : ℚ
  quantity : ℚ
  initialStopLoss : ℚ
  currentStopLoss : ℚ
  highestPrice : ℚ
  currentPrice : ℚ
  stopLossOrderID : String
  stopLossHistory : List StopLossEvent
  takeProfitConfig : Option TakeProfitConfig
deriving DecidableEq

/-- Modelled from the spec: Position.AddStopLossEvent (the file defining
the Position methods is not among the provided sources).  The spec
describes stopLossHistory as an ordered append-only log of
(old, new, reason, source, timestamp) entries, so the method appends one
entry recording the old and new stop. -/
def addStopLossEvent (pos : Position) (oldStop newStop : ℚ) (reason source : String) : Position :=
  { pos with stopLossHistory := pos.stopLossHistory ++ [⟨oldStop, newStop, reason, source⟩] }

/-- Modelled from the spec: Position.UpdatePrice (the file defining the
Position methods is not among the provided sources).  Per the spec, a
tick updates currentPrice and improves the favorable-extreme price on a
strict improvement: price above the stored extreme for long, below it
for short; ties do not update. -/
def updatePrice (pos : Position) (price : ℚ) : Position :=
  let pos1 := { pos with currentPrice := price }
  match pos.side with
  | Side.long => if price > pos.highestPrice then { pos1 with highestPrice := price } else pos1
  | Side.short => if price < pos.highestPrice then { pos1 with highestPrice := price } else pos1

/-- Modelled from the spec: Position.ShouldTriggerStopLoss (the file
defining the Position methods is not among the provided sources).  Per
the spec, a long position triggers when price falls to or below the
current stop and a short one when price rises to or above it. -/
def shouldTriggerStopLoss (pos : Position) : Bool :=
  match pos.side with
  | Side.long => decide (pos.currentPrice ≤ pos.currentStopLoss)
  | Side.short => decide (pos.currentPrice ≥ pos.currentStopLoss)

/-- Outcome of the exchange-gateway calls made while replacing a stop
order: whether the cancel of the old order succeeds, whether placing
the new order succeeds, and the identifier the venue assigns. -/
structure UpdateOutcome where
  cancelOk : Bool
  placeOk : Bool
  newOrderID : String

/-- Result of StopLossManager.UpdateStopLoss on one position: the
position state afterwards, whether a place-order request was sent to
the exchange, and the surfaced error if any. -/
structure UpdateResult where
  pos : Position
  orderPlaced : Bool
  error : Option String

def emptyOrderID : String := ""

def errLongDirection : String := "long stop-loss may only move up"

def errShortDirection : String := "short stop-loss may only move down"

def errPlaceFailed : String := "placing stop-loss order failed"

def errNotFound : String := "position does not exist"

def errCloseFailed : String := "stop-loss close failed"

def errTPFailed : String := "take-profit execution failed"

def srcLLM : String := "llm"

/-- Embeds the per-position body of StopLossManager.UpdateStopLoss:
reject a strictly adverse move with a directional error and no state
change; otherwise append a history entry, cancel the old order if one
rests (continuing on cancel failure), send the replacement order, and
commit currentStopLoss only when the placement succeeds. -/
def updateStopLoss (pos : Position) (newStopLoss : ℚ) (reason : String)
    (o : UpdateOutcome) : UpdateResult :=
  let oldStop := pos.currentStopLoss
  if pos.side = Side.long ∧ newStopLoss < oldStop then
    ⟨pos, false, Option.some errLongDirection⟩
  else if pos.side = Side.short ∧ newStopLoss > oldStop then
    ⟨pos, false, Option.some errShortDirection⟩
  else
    let pos1 := addStopLossEvent pos oldStop newStopLoss reason srcLLM
    let pos2 :=
      if pos1.stopLossOrderID ≠ emptyOrderID ∧ o.cancelOk then
        { pos1 with stopLossOrderID := emptyOrderID }
      else pos1
    if o.placeOk then
      ⟨{ pos2 with stopLossOrderID := o.newOrderID, currentStopLoss := newStopLoss },
        true, Option.none⟩
    else
      ⟨pos2, true, Option.some errPlaceFailed⟩

/-- Embeds the StopLossManager position registry (symbol-keyed map). -/
structure StopLossManager where
  positions : List (String × Position)
deriving DecidableEq

/-- Embeds StopLossManager.GetPosition. -/
def getPosition (sm : StopLossManager) (symbol : String) : Option Position :=
  match sm.positions.find? (fun p => p.1 == symbol) with
  | Option.some p => Option.some p.2
  | Option.none => Option.none

/-- Replaces the stored position for a symbol (the Go map assignment). -/
def setPosition (sm : StopLossManager) (symbol : String) (pos : Position) : StopLossManager :=
  ⟨sm.positions.map (fun p => if p.1 == symbol then (p.1, pos) else p)⟩

/-- Embeds StopLossManager.RemovePosition. -/
def removePosition (sm : StopLossManager) (symbol : String) : StopLossManager :=
  ⟨sm.positions.filter (fun p => !(p.1 == symbol))⟩

/-- Embeds StopLossManager.RegisterPosition: seed the extreme and
current price with the entry price and store the position, overwriting
any prior entry for the symbol. -/
def registerPosition (sm : StopLossManager) (pos : Position) : StopLossManager :=
  let pos1 := { pos with highestPrice := pos.entryPrice, currentPrice := pos.entryPrice }
  ⟨(pos.symbol, pos1) :: (removePosition sm pos.symbol).positions⟩

/-- Embeds StopLossManager.UpdateStopLoss at the registry level: an
unknown symbol returns a not-found error and leaves all state
unchanged. -/
def updateStopLossM (sm : StopLossManager) (symbol : String) (newStopLoss : ℚ)
    (reason : String) (o : UpdateOutcome) : StopLossManager × Option String :=
  match getPosition sm symbol with
  | Option.none => (sm, Option.some errNotFound)
  | Option.some pos =>
      let r := updateStopLoss pos newStopLoss reason o
      (setPosition sm symbol r.pos, r.error)

/-- Outcome of the exchange-gateway market-close call: whether the close
succeeds and the fill price it reports. -/
structure TickOutcome where
  closeOk : Bool
  fillPrice : ℚ

/-- Embeds StopLossManager.UpdatePosition (the price-tick entry point):
an unknown symbol is a no-op returning no error; otherwise the price is
updated and, when the stop triggers, a full market close is attempted,
removing the position on success and surfacing an error on failure. -/
def updatePositionM (sm : StopLossManager) (symbol : String) (currentPrice : ℚ)
    (o : TickOutcome) : StopLossManager × Option String :=
  match getPosition sm symbol with
  | Option.none => (sm, Option.none)
  | Option.some pos =>
      let pos1 := updatePrice pos currentPrice
      if shouldTriggerStopLoss pos1 then
        if o.closeOk then (removePosition sm symbol, Option.none)
        else (setPosition sm symbol pos1, Option.some errCloseFailed)
      else (setPosition sm symbol pos1, Option.none)

/-- Embeds the rung table built by
TakeProfitManager.InitializeTakeProfitLevels: three levels closing 30%,
30% and 40% at 1R, 2R and 3R, each carrying the stop-loss floor it
installs (breakeven after rung 1, the previous rung's target after
rungs 2 and 3).  Long targets sit above the entry, short targets below
it, exactly as the two branches of the source compute them. -/
def mkLevels (entryPrice riskDistance : ℚ) (side : Side) : List TakeProfitLevel :=
  let target1 :=
    match side with
    | Side.long => entryPrice + riskDistance * 1
    | Side.short => entryPrice - riskDistance * 1
  let target2 :=
    match side with
    | Side.long => entryPrice + riskDistance * 2
    | Side.short => entryPrice - riskDistance * 2
  let target3 :=
    match side with
    | Side.long => entryPrice + riskDistance * 3
    | Side.short => entryPrice - riskDistance * 3
  [⟨1, 1.0, 0.30, target1, false, 0, entryPrice⟩,
   ⟨2, 2.0, 0.30, target2, false, 0, target1⟩,
   ⟨3, 3.0, 0.40, target3, false, 0, target2⟩]

/-- Embeds TakeProfitManager.InitializeTakeProfitLevels. -/
def initializeTakeProfitLevels (pos : Position) : Position :=
  let riskDistance := |pos.entryPrice - pos.initialStopLoss|
  { pos with
    takeProfitConfig := Option.some ⟨true, mkLevels pos.entryPrice riskDistance pos.side⟩ }

/-- Embeds the target-reached test inside
TakeProfitManager.MonitorAndExecute: a long rung fires at or above its
target, a short one at or below it. -/
def targetReached (side : Side) (currentPrice : ℚ) (lvl : TakeProfitLevel) : Bool :=
  match side with
  | Side.long => decide (currentPrice ≥ lvl.targetPrice)
  | Side.short => decide (currentPrice ≤ lvl.targetPrice)

/-- A rung the scan of MonitorAndExecute passes over: either already
executed or its target not reached. -/
def skipLevel (side : Side) (currentPrice : ℚ) (lvl : TakeProfitLevel) : Prop :=
  lvl.executed = true ∨ targetReached side currentPrice lvl = false

instance (side : Side) (currentPrice : ℚ) (lvl : TakeProfitLevel) :
    Decidable (skipLevel side currentPrice lvl) := by
  unfold skipLevel
  infer_instance

/-- Embeds the rung-scanning loop of TakeProfitManager.MonitorAndExecute:
already-executed rungs and rungs whose target is not reached are passed
over; the first remaining rung closes quantity·percentage of the
position (quantity is the position quantity at call time, unchanged by
the scan), is marked executed with its fill price, and the loop stops
after this single execution.  A failed close order leaves the rung
unmarked and surfaces the error. -/
def execLevels (side : Side) (currentPrice : ℚ) (o : TickOutcome) (qty : ℚ) :
    List TakeProfitLevel → Except String (List TakeProfitLevel × ℚ × Nat)
  | [] => Except.ok ([], qty, 0)
  | lvl :: rest =>
      if skipLevel side currentPrice lvl then
        match execLevels side currentPrice o qty rest with
        | Except.ok (rest1, q, c) => Except.ok (lvl :: rest1, q, c)
        | Except.error e => Except.error e
      else if o.closeOk then
        let closeQuantity := qty * lvl.percentage
        Except.ok ({ lvl with executed := true, executedPrice := o.fillPrice } :: rest,
          qty - closeQuantity, 1)
      else Except.error errTPFailed

/-- Embeds TakeProfitManager.MonitorAndExecute on one position: a
missing or disabled ladder is a no-op; otherwise the rung scan runs and
its result (marked rung, decremented quantity, executed count) is
written back to the position. -/
def monitorAndExecute (pos : Position) (currentPrice : ℚ) (o : TickOutcome) :
    Position × Nat × Option String :=
  match pos.takeProfitConfig with
  | Option.none => (pos, 0, Option.none)
  | Option.some cfg =>
      if cfg.enabled = false then (pos, 0, Option.none)
      else
        match execLevels pos.side currentPrice o pos.quantity cfg.levels with
        | Except.error e => (pos, 0, Option.some e)
        | Except.ok r =>
            let pos1 := { pos with quantity := r.2.1 }
            let pos2 := { pos1 with takeProfitConfig := Option.some ⟨cfg.enabled, r.1⟩ }
            (pos2, r.2.2, Option.none)

/-- Embeds the scan of TakeProfitManager.GetMinimumStopLoss: walk the
rungs in order, remembering the last executed one, and stop at the
first unexecuted rung. -/
def lastExecutedRun : List TakeProfitLevel → Option TakeProfitLevel
  | [] => Option.none
  | lvl :: rest =>
      if lvl.executed then
        match lastExecutedRun rest with
        | Option.some l => Option.some l
        | Option.none => Option.some lvl
      else Option.none

/-- Embeds TakeProfitManager.GetMinimumStopLoss: the floor installed by
the most recent executed rung, or (0, false) when no rung has executed
or no ladder is active. -/
def getMinimumStopLoss (pos : Position) : ℚ × Bool :=
  match pos.takeProfitConfig with
  | Option.none => (0, false)
  | Option.some cfg =>
      if cfg.enabled = false then (0, false)
      else
        match lastExecutedRun cfg.levels with
        | Option.none => (0, false)
        | Option.some lvl => (lvl.newStopLoss, true)

/-- Modelled from the spec: the floor clamp the controller applies to a
trailing-recalculated stop proposal before accepting it (§4.3/§4.4 —
the integration code tying the trailing recalculation to
GetMinimumStopLoss is not among the provided sources): the proposal is
replaced by max(proposal, floor) for a long position and
min(proposal, floor) for a short one. -/
def clampToFloor (side : Side) (proposedStop floor : ℚ) : ℚ :=
  match side with
  | Side.long => max proposedStop floor
  | Side.short => min proposedStop floor

/-- Modelled from the spec: the trailing-update path of the controller —
clamp the trailing proposal to the take-profit floor when one exists,
then submit it through the stop-update path of stoploss_manager.go. -/
def applyTrailingUpdate (pos : Position) (proposedStop : ℚ) (reason : String)
    (o : UpdateOutcome) : UpdateResult :=
  let fl := getMinimumStopLoss pos
  let clamped := if fl.2 then clampToFloor pos.side proposedStop fl.1 else proposedStop
  updateStopLoss pos clamped reason o

/-- One operation applied to a registered position by the monitoring
loop or an external caller: a stop-update request or a price tick. -/
inductive ManagerOp
  | updateStop (newStopLoss : ℚ) (reason : String) (o : UpdateOutcome)
  | priceTick (price : ℚ) (o : TickOutcome)

/-- One step of the per-position lifecycle: a stop-update request runs
UpdateStopLoss; a price tick runs the UpdatePosition body, where a
triggered stop that closes successfully removes the position (None). -/
def stepPosition (pos : Position) (op : ManagerOp) : Option Position :=
  match op with
  | ManagerOp.updateStop newStopLoss reason o =>
      Option.some (updateStopLoss pos newStopLoss reason o).pos
  | ManagerOp.priceTick price o =>
      let pos1 := updatePrice pos price
      if shouldTriggerStopLoss pos1 then
        if o.closeOk then Option.none else Option.some pos1
      else Option.some pos1

/-- Runs a sequence of operations on a position, stopping when the
position is closed and removed. -/
def runOps (pos : Position) : List ManagerOp → Option Position
  | [] => Option.some pos
  | op :: rest =>
      match stepPosition pos op with
      | Option.none => Option.none
      | Option.some pos1 => runOps pos1 rest

/-- The concrete long position exercising the take-profit ladder: entry
100, initial stop 90 (risk distance 10, so targets 110, 120, 130),
quantity 1. -/
def c1Position : Position :=
  ⟨btcKey, Side.long, 100, 1, 90, 90, 100, 100, emptyOrderID, [], Option.none⟩

/-- First ladder evaluation at price 110 (close order succeeds). -/
def c1Step1 : Position × Nat × Option String :=
  monitorAndExecute (initializeTakeProfitLevels c1Position) 110 ⟨true, 110⟩

/-- Second ladder evaluation at price 120. -/
def c1Step2 : Position × Nat × Option String :=
  monitorAndExecute c1Step1.1 120 ⟨true, 120⟩

/-- Third ladder evaluation at price 130. -/
def c1Step3 : Position × Nat × Option String :=
  monitorAndExecute c1Step2.1 130 ⟨true, 130⟩

/-- The concrete long position used to refute C4: current stop 48000. -/
def c4Position : Position :=
  ⟨btcKey, Side.long, 50000, 1, 48000, 48000, 50000, 50000, emptyOrderID, [], Option.none⟩

def c4Reason : String := "hold stop at breakeven"

def c4OrderID : String := "1001"

/-- The concrete long position used to refute C5: registered for
BTCUSDT (update threshold 0.3%), current stop 50000. -/
def c5Position : Position :=
  ⟨btcKey, Side.long, 51000, 1, 50000, 50000, 51000, 51000, emptyOrderID, [], Option.none⟩

def c5Reason : String := "small favorable adjustment"

def c5OrderID : String := "1002"

/-- The empty registry used to refute C6. -/
def c6Manager : StopLossManager := ⟨[]⟩

def c6Reason : String := "tighten stop"

def c6OrderID : String := "1003"

def c10Reason : String := "raise stop toward price"

def c10OrderID : String := "1004"

/-- The concrete long position used in the C10 witness. -/
def c10Position : Position :=
  ⟨btcKey, Side.long, 50000, 1, 48000, 48000, 50000, 50000, emptyOrderID, [], Option.none⟩

/-- The ladder state after its first rungs have executed: marks one rung
executed (recording its fill price) for each listed fill, in order. -/
def markRunWith : List ℚ → List TakeProfitLevel → List TakeProfitLevel
  | [], levels => levels
  | _ :: _, [] => []
  | f :: fs, lvl :: rest =>
      { lvl with executed := true, executedPrice := f } :: markRunWith fs rest

/-- The target-ordering invariant of a ladder: for a long position the
rung targets are non-decreasing along the list, for a short position
non-increasing.  Initialized ladders satisfy it (mkLevels_pairwise). -/
def levelTargetsLE (side : Side) (a b : TakeProfitLevel) : Prop :=
  match side with
  | Side.long => a.targetPrice ≤ b.targetPrice
  | Side.short => b.targetPrice ≤ a.targetPrice

/-- The concrete long position for the C8 witness: freshly initialized
ladder (entry 100, initial stop 90), quantity 1. -/
def c8Position : Position :=
  initializeTakeProfitLevels
    ⟨btcKey, Side.long, 100, 1, 90, 90, 100, 100, emptyOrderID, [], Option.none⟩

/-- A ladder whose executed flags are downward closed along the list:
whenever a later rung has executed, every earlier rung has too.  A
fresh ladder satisfies this trivially, and by C8 every evaluation
executes a rung only after all its predecessors, preserving it. -/
def executedDownclosed (L : List TakeProfitLevel) : Prop :=
  List.Pairwise (fun a b => b.executed = true → a.executed = true) L

/-- Rung 1 of the C9 witness ladder, executed at fill 110. -/
def c9Rung1 : TakeProfitLevel := ⟨1, 1.0, 0.30, 100 + |100 - 90| * 1, true, 110, 100⟩

/-- Rung 2 of the C9 witness ladder, not yet executed. -/
def c9Rung2 : TakeProfitLevel := ⟨2, 2.0, 0.30, 100 + |100 - 90| * 2, false, 0, 100 + |100 - 90| * 1⟩

/-- Rung 3 of the C9 witness ladder, not yet executed. -/
def c9Rung3 : TakeProfitLevel := ⟨3, 3.0, 0.40, 100 + |100 - 90| * 3, false, 0, 100 + |100 - 90| * 2⟩

/-- The C9 witness ladder: initialized at entry 100 / initial stop 90,
rung 1 executed at fill 110. -/
def c9Ladder : List TakeProfitLevel := markRunWith [110] (mkLevels 100 (|100 - 90|) Side.long)

/-- The concrete position holding the C9 witness ladder. -/
def c9Position : Position :=
  ⟨btcKey, Side.long, 100, 7/10, 90, 90, 110, 110, emptyOrderID, [],
    Option.some ⟨true, c9Ladder⟩⟩

def c2Reason : String := "trailing recalculation"

def c2OrderID : String := "1006"

def c2Fills : List ℚ := [110]

/-- The concrete long position for the C2 witness: entry 100, initial
stop 90, rung 1 already executed at fill 110 (floor = breakeven 100),
current stop still at the initial 90. -/
def c2Position : Position :=
  ⟨btcKey, Side.long, 100, 7/10, 90, 90, 110, 110, emptyOrderID, [],
    Option.some ⟨true, markRunWith c2Fills (mkLevels 100 (|100 - 90|) Side.long)⟩⟩

def c3Reason : String := "trail stop upward"

def c3OrderID : String := "1005"

/-- The concrete long position used in the C3 witness. -/
def c3Position : Position :=
  ⟨btcKey, Side.long, 50000, 1, 48000, 48000, 50000, 50000, emptyOrderID, [], Option.none⟩

/-- The state after raising the stop to 49000 and ticking at 60000. -/
def c3Final : Position :=
  ⟨btcKey, Side.long, 50000, 1, 48000, 49000, 60000, 60000, c3OrderID,
    [⟨48000, 49000, c3Reason, srcLLM⟩], Option.none⟩

theorem getConfig_btcKey : getConfig btcKey = btcusdtConfig := rfl

theorem long_eq_short_iff : (Side.long = Side.short) = False := by
  simp only [eq_iff_iff, iff_false]
  exact fun h => Side.noConfusion h

theorem short_eq_long_iff : (Side.short = Side.long) = False := by
  simp only [eq_iff_iff, iff_false]
  exact fun h => Side.noConfusion h

/-- C7: for every symbol and its configured parameters, the initial stop
is entryPrice minus (long) or plus (short) initialATRMultiplier·atr and
the trailing stop is extremePrice minus (long) or plus (short)
trailingATRMultiplier·atr; concretely, entry 50000 with atr 500 under
the BTCUSDT multiplier 2.5 gives an initial stop of 48750 for long and
51250 for short. -/
theorem c7_stop_formulas (symbol : String) (entryPrice extremePrice atr : ℚ) :
    calculateInitialStop symbol entryPrice atr Side.long
        = entryPrice - (getConfig symbol).initialATRMultiplier * atr ∧
    calculateInitialStop symbol entryPrice atr Side.short
        = entryPrice + (getConfig symbol).initialATRMultiplier * atr ∧
    calculateTrailingStop symbol extremePrice atr Side.long
        = extremePrice - (getConfig symbol).trailingATRMultiplier * atr ∧
    calculateTrailingStop symbol extremePrice atr Side.short
        = extremePrice + (getConfig symbol).trailingATRMultiplier * atr ∧
    (getConfig btcKey).initialATRMultiplier = 2.5 ∧
    calculateInitialStop btcKey 50000 500 Side.long = 48750 ∧
    calculateInitialStop btcKey 50000 500 Side.short = 51250 := by
  refine ⟨rfl, rfl, rfl, rfl, rfl, ?_, ?_⟩ <;>
    norm_num [calculateInitialStop, getConfig_btcKey, btcusdtConfig]

/-- C1: the code computes each rung's close quantity from the position's
current quantity, not its original quantity.  On a quantity-1 position
rung 1 closes 0.30 but rung 2 closes 0.21 (not 0.30) and rung 3 closes
0.196 (not 0.40); after all three rungs have executed the remaining
quantity is 147/500 = 0.294, not zero, although the code then reports
the position fully closed. -/
theorem c1_ladder_residual_quantity :
    c1Step1.1.quantity = 7/10 ∧
    c1Step2.1.quantity = 49/100 ∧
    c1Step3.1.quantity = 147/500 ∧
    (c1Step3.1.takeProfitConfig.map (fun cfg => cfg.levels.all (fun l => l.executed)))
      = Option.some true ∧
    c1Step1.2.1 = 1 ∧ c1Step2.2.1 = 1 ∧ c1Step3.2.1 = 1 ∧
    c1Step2.1.quantity ≠ 1 - (0.30 + 0.30) ∧
    (147 : ℚ)/500 ≠ 0 := by
  refine ⟨?_, ?_, ?_, ?_, ?_, ?_, ?_, ?_, ?_⟩ <;>
    norm_num [c1Step1, c1Step2, c1Step3, c1Position, initializeTakeProfitLevels, mkLevels,
      monitorAndExecute, execLevels, skipLevel, targetReached]

/-- C4 counterexample: proposing a stop equal to the current stop of a
long position (newStop ≤ oldStop with equality) is NOT rejected: the
update returns no error, a history entry is appended and the
replacement order is forwarded, contradicting the claim that equal
values are rejected with a directional error and no state change. -/
theorem c4_counterexample :
    (updateStopLoss c4Position 48000 c4Reason ⟨true, true, c4OrderID⟩).error = Option.none ∧
    (updateStopLoss c4Position 48000 c4Reason ⟨true, true, c4OrderID⟩).orderPlaced = true ∧
    (updateStopLoss c4Position 48000 c4Reason ⟨true, true, c4OrderID⟩).pos.stopLossHistory
      ≠ c4Position.stopLossHistory := by
  refine ⟨?_, ?_, ?_⟩ <;>
    norm_num [updateStopLoss, addStopLossEvent, c4Position]

/-- C4 (amended): the update entry point rejects a proposal with a
directional error and no state change exactly when it is strictly
adverse — newStop < oldStop for long, newStop > oldStop for short; an
equal proposal passes the direction check, appends a history entry and
is forwarded to the exchange. -/
theorem c4_strict_rejection (pos : Position) (newStopLoss : ℚ) (reason : String)
    (o : UpdateOutcome) :
    (pos.side = Side.long → newStopLoss < pos.currentStopLoss →
      updateStopLoss pos newStopLoss reason o
        = ⟨pos, false, Option.some errLongDirection⟩) ∧
    (pos.side = Side.short → pos.currentStopLoss < newStopLoss →
      updateStopLoss pos newStopLoss reason o
        = ⟨pos, false, Option.some errShortDirection⟩) ∧
    (newStopLoss = pos.currentStopLoss →
      (updateStopLoss pos newStopLoss reason o).orderPlaced = true ∧
      (updateStopLoss pos newStopLoss reason o).pos.stopLossHistory
        = pos.stopLossHistory
            ++ [⟨pos.currentStopLoss, newStopLoss, reason, srcLLM⟩]) := by
  unfold updateStopLoss addStopLossEvent
  refine ⟨?_, ?_, ?_⟩
  · intro hside hlt
    rw [if_pos ⟨hside, hlt⟩]
  · intro hside hgt
    rw [if_neg (fun h => by simp [hside] at h), if_pos ⟨hside, hgt⟩]
  · intro heq
    rw [if_neg (fun h => lt_irrefl _ (heq ▸ h.2)), if_neg (fun h => lt_irrefl _ (heq ▸ h.2))]
    constructor
    · by_cases hc : ({ pos with stopLossHistory := pos.stopLossHistory
          ++ [⟨pos.currentStopLoss, newStopLoss, reason, srcLLM⟩] } : Position).stopLossOrderID
            ≠ emptyOrderID ∧ o.cancelOk = true <;>
        by_cases hp : o.placeOk = true <;>
        simp [hc, hp]
    · by_cases hc : ({ pos with stopLossHistory := pos.stopLossHistory
          ++ [⟨pos.currentStopLoss, newStopLoss, reason, srcLLM⟩] } : Position).stopLossOrderID
            ≠ emptyOrderID ∧ o.cancelOk = true <;>
        by_cases hp : o.placeOk = true <;>
        simp [hc, hp]

/-- C4 witness: at the concrete inputs, a strictly lower proposal on a
long position is rejected with the directional error and unchanged
state. -/
theorem c4_strict_rejection_witness :
    updateStopLoss c4Position 47000 c4Reason ⟨true, true, c4OrderID⟩
      = ⟨c4Position, false, Option.some errLongDirection⟩ :=
  (c4_strict_rejection c4Position 47000 c4Reason ⟨true, true, c4OrderID⟩).1 rfl (by decide)

/-- C5 counterexample: raising the stop of the BTCUSDT long position
from 50000 to 50050 is a 0.1% change, below the 0.3% update threshold
(ShouldUpdate is false), yet the externally exposed update entry point
forwards the replacement order to the exchange and commits the new
stop: no threshold gate is applied on this path. -/
theorem c5_counterexample :
    shouldUpdate btcKey 50000 50050 = false ∧
    (updateStopLoss c5Position 50050 c5Reason ⟨true, true, c5OrderID⟩).orderPlaced = true ∧
    (updateStopLoss c5Position 50050 c5Reason ⟨true, true, c5OrderID⟩).pos.currentStopLoss
      = 50050 := by
  refine ⟨?_, ?_, ?_⟩
  · norm_num [shouldUpdate, getConfig_btcKey, btcusdtConfig, abs_of_nonneg]
  · norm_num [updateStopLoss, addStopLossEvent, c5Position, long_eq_short_iff]
  · norm_num [updateStopLoss, addStopLossEvent, c5Position, long_eq_short_iff]

/-- C5 (amended): the externally exposed update entry point forwards
every direction-valid proposal to the exchange without consulting the
update threshold; the threshold predicate itself holds iff
|newStop − oldStop| / |oldStop| · 100 meets the symbol's configured
updateThresholdPct, but nothing on this path invokes it. -/
theorem c5_no_threshold_gate (pos : Position) (newStopLoss : ℚ) (reason : String)
    (o : UpdateOutcome) (symbol : String) (oldStop newStop : ℚ) :
    (¬(pos.side = Side.long ∧ newStopLoss < pos.currentStopLoss) →
     ¬(pos.side = Side.short ∧ pos.currentStopLoss < newStopLoss) →
      (updateStopLoss pos newStopLoss reason o).orderPlaced = true) ∧
    (shouldUpdate symbol oldStop newStop = true
      ↔ |newStop - oldStop| / |oldStop| * 100 ≥ (getConfig symbol).updateThreshold) := by
  constructor
  · intro h1 h2
    unfold updateStopLoss
    rw [if_neg h1, if_neg h2]
    by_cases hc : (addStopLossEvent pos pos.currentStopLoss newStopLoss reason
        srcLLM).stopLossOrderID ≠ emptyOrderID ∧ o.cancelOk = true <;>
      by_cases hp : o.placeOk = true <;>
      simp [hc, hp]
  · unfold shouldUpdate
    rw [abs_div]
    simp

/-- C5 witness: the entry point forwards the sub-threshold favorable
proposal of the counterexample. -/
theorem c5_no_threshold_gate_witness :
    (updateStopLoss c5Position 50050 c5Reason ⟨true, true, c5OrderID⟩).orderPlaced = true :=
  (c5_no_threshold_gate c5Position 50050 c5Reason ⟨true, true, c5OrderID⟩ btcKey 50000 50050).1
    (by decide) (by decide)

/-- C6 counterexample: a stop-update request for a symbol with no
registered position returns an error ("position does not exist"), not
the claimed silent no-op. -/
theorem c6_counterexample :
    (updateStopLossM c6Manager btcKey 49000 c6Reason ⟨true, true, c6OrderID⟩).2
      = Option.some errNotFound := by
  simp [updateStopLossM, c6Manager, getPosition]

/-- C6 (amended): for a symbol with no registered position, a price tick
is a no-op returning no error, while a stop-update request leaves all
state unchanged but returns a not-found error to the caller. -/
theorem c6_unknown_symbol (sm : StopLossManager) (symbol : String) (price newStopLoss : ℚ)
    (reason : String) (uo : UpdateOutcome) (tk : TickOutcome) :
    getPosition sm symbol = Option.none →
    updatePositionM sm symbol price tk = (sm, Option.none) ∧
    updateStopLossM sm symbol newStopLoss reason uo = (sm, Option.some errNotFound) := by
  intro h
  unfold updatePositionM updateStopLossM
  rw [h]
  exact ⟨rfl, rfl⟩

/-- C6 witness: on the empty registry, the tick is a silent no-op and
the update request errors without changing state. -/
theorem c6_unknown_symbol_witness :
    updatePositionM c6Manager btcKey 50000 ⟨true, 50000⟩ = (c6Manager, Option.none) ∧
    updateStopLossM c6Manager btcKey 49000 c6Reason ⟨true, true, c6OrderID⟩
      = (c6Manager, Option.some errNotFound) :=
  c6_unknown_symbol c6Manager btcKey 50000 49000 c6Reason ⟨true, true, c6OrderID⟩
    ⟨true, 50000⟩ rfl

/-- C10: when a direction-valid stop update reaches the exchange and the
placement of the replacement order fails, the call surfaces an error
and currentStopLoss keeps its previous value, but the history entry
recording the attempted old→new change has already been appended: the
update is not atomic with respect to the history log. -/
theorem c10_history_not_atomic (pos : Position) (newStopLoss : ℚ) (reason : String)
    (o : UpdateOutcome) :
    ¬(pos.side = Side.long ∧ newStopLoss < pos.currentStopLoss) →
    ¬(pos.side = Side.short ∧ pos.currentStopLoss < newStopLoss) →
    o.placeOk = false →
    (updateStopLoss pos newStopLoss reason o).error = Option.some errPlaceFailed ∧
    (updateStopLoss pos newStopLoss reason o).pos.currentStopLoss = pos.currentStopLoss ∧
    (updateStopLoss pos newStopLoss reason o).pos.stopLossHistory
      = pos.stopLossHistory ++ [⟨pos.currentStopLoss, newStopLoss, reason, srcLLM⟩] := by
  intro h1 h2 hp
  unfold updateStopLoss addStopLossEvent
  rw [if_neg h1, if_neg h2]
  by_cases hc : ({ pos with stopLossHistory := pos.stopLossHistory
      ++ [⟨pos.currentStopLoss, newStopLoss, reason, srcLLM⟩] } : Position).stopLossOrderID
        ≠ emptyOrderID ∧ o.cancelOk = true <;>
    simp [hc, hp]

theorem updateStopLoss_side (pos : Position) (newStopLoss : ℚ) (reason : String)
    (o : UpdateOutcome) :
    (updateStopLoss pos newStopLoss reason o).pos.side = pos.side := by
  unfold updateStopLoss addStopLossEvent
  by_cases h1 : pos.side = Side.long ∧ newStopLoss < pos.currentStopLoss
  · rw [if_pos h1]
  · rw [if_neg h1]
    by_cases h2 : pos.side = Side.short ∧ pos.currentStopLoss < newStopLoss
    · rw [if_pos h2]
    · rw [if_neg h2]
      by_cases hc : ({ pos with stopLossHistory := pos.stopLossHistory
          ++ [⟨pos.currentStopLoss, newStopLoss, reason, srcLLM⟩] } : Position).stopLossOrderID
            ≠ emptyOrderID ∧ o.cancelOk = true <;>
        by_cases hp : o.placeOk = true <;>
        simp [hc, hp]

theorem updateStopLoss_stop_le (pos : Position) (newStopLoss : ℚ) (reason : String)
    (o : UpdateOutcome) (hside : pos.side = Side.long) :
    pos.currentStopLoss ≤ (updateStopLoss pos newStopLoss reason o).pos.currentStopLoss := by
  unfold updateStopLoss addStopLossEvent
  by_cases h1 : pos.side = Side.long ∧ newStopLoss < pos.currentStopLoss
  · rw [if_pos h1]
  · rw [if_neg h1, if_neg (fun h => Side.noConfusion (hside.symm.trans h.1))]
    have hle : pos.currentStopLoss ≤ newStopLoss :=
      le_of_not_lt (fun hlt => h1 ⟨hside, hlt⟩)
    by_cases hc : ({ pos with stopLossHistory := pos.stopLossHistory
        ++ [⟨pos.currentStopLoss, newStopLoss, reason, srcLLM⟩] } : Position).stopLossOrderID
          ≠ emptyOrderID ∧ o.cancelOk = true <;>
      by_cases hp : o.placeOk = true <;>
      simp [hc, hp, hle]

theorem updateStopLoss_stop_ge (pos : Position) (newStopLoss : ℚ) (reason : String)
    (o : UpdateOutcome) (hside : pos.side = Side.short) :
    (updateStopLoss pos newStopLoss reason o).pos.currentStopLoss ≤ pos.currentStopLoss := by
  unfold updateStopLoss addStopLossEvent
  by_cases h1 : pos.side = Side.long ∧ newStopLoss < pos.currentStopLoss
  · rw [if_pos h1]
  · rw [if_neg h1]
    by_cases h2 : pos.side = Side.short ∧ pos.currentStopLoss < newStopLoss
    · rw [if_pos h2]
    · rw [if_neg h2]
      have hle : newStopLoss ≤ pos.currentStopLoss :=
        le_of_not_lt (fun hlt => h2 ⟨hside, hlt⟩)
      by_cases hc : ({ pos with stopLossHistory := pos.stopLossHistory
          ++ [⟨pos.currentStopLoss, newStopLoss, reason, srcLLM⟩] } : Position).stopLossOrderID
            ≠ emptyOrderID ∧ o.cancelOk = true <;>
        by_cases hp : o.placeOk = true <;>
        simp [hc, hp, hle]

theorem updatePrice_side (pos : Position) (price : ℚ) :
    (updatePrice pos price).side = pos.side := by
  unfold updatePrice
  cases h : pos.side <;> simp [h] <;> split_ifs <;> rfl

theorem updatePrice_stop (pos : Position) (price : ℚ) :
    (updatePrice pos price).currentStopLoss = pos.currentStopLoss := by
  unfold updatePrice
  cases h : pos.side <;> simp [h] <;> split_ifs <;> rfl

theorem stepPosition_side_stop (pos : Position) (op : ManagerOp) (pos1 : Position)
    (h : stepPosition pos op = Option.some pos1) :
    pos1.side = pos.side ∧
    (pos.side = Side.long → pos.currentStopLoss ≤ pos1.currentStopLoss) ∧
    (pos.side = Side.short → pos1.currentStopLoss ≤ pos.currentStopLoss) := by
  cases op with
  | updateStop ns reason o =>
      simp only [stepPosition, Option.some.injEq] at h
      subst h
      exact ⟨updateStopLoss_side pos ns reason o,
        fun hs => updateStopLoss_stop_le pos ns reason o hs,
        fun hs => updateStopLoss_stop_ge pos ns reason o hs⟩
  | priceTick price o =>
      simp only [stepPosition] at h
      split_ifs at h
      all_goals simp only [Option.some.injEq] at h
      all_goals subst h
      all_goals exact ⟨updatePrice_side pos price,
        fun _ => le_of_eq (updatePrice_stop pos price).symm,
        fun _ => le_of_eq (updatePrice_stop pos price)⟩

/-- C3: over every sequence of stop-update requests and price ticks, the
committed currentStopLoss never moves adversely: it is non-decreasing
for a long position and non-increasing for a short one.  Instantiating
the starting state at any intermediate state of a run shows the whole
sequence of stop values is monotonic in the favorable direction. -/
theorem c3_stop_monotone (ops : List ManagerOp) (pos pos1 : Position)
    (h : runOps pos ops = Option.some pos1) :
    pos1.side = pos.side ∧
    (pos.side = Side.long → pos.currentStopLoss ≤ pos1.currentStopLoss) ∧
    (pos.side = Side.short → pos1.currentStopLoss ≤ pos.currentStopLoss) := by
  induction ops generalizing pos with
  | nil =>
      simp only [runOps, Option.some.injEq] at h
      subst h
      exact ⟨rfl, fun _ => le_refl _, fun _ => le_refl _⟩
  | cons op rest ih =>
      simp only [runOps] at h
      cases hstep : stepPosition pos op with
      | none => rw [hstep] at h; exact absurd h (by simp)
      | some mid =>
          rw [hstep] at h
          obtain ⟨hside, hlongle, hshortle⟩ := stepPosition_side_stop pos op mid hstep
          obtain ⟨hside2, hlong2, hshort2⟩ := ih mid h
          refine ⟨hside2.trans hside, ?_, ?_⟩
          · intro hl
            exact le_trans (hlongle hl) (hlong2 (hside.trans hl))
          · intro hs
            exact le_trans (hshort2 (hside.trans hs)) (hshortle hs)

theorem markRunWith_nil (fills : List ℚ) : markRunWith fills [] = [] := by
  cases fills <;> rfl

theorem updateStopLoss_stop_cases (pos : Position) (newStopLoss : ℚ) (reason : String)
    (o : UpdateOutcome) :
    (updateStopLoss pos newStopLoss reason o).pos.currentStopLoss = pos.currentStopLoss ∨
    (updateStopLoss pos newStopLoss reason o).pos.currentStopLoss = newStopLoss := by
  unfold updateStopLoss addStopLossEvent
  by_cases h1 : pos.side = Side.long ∧ newStopLoss < pos.currentStopLoss
  · rw [if_pos h1]
    exact Or.inl rfl
  · rw [if_neg h1]
    by_cases h2 : pos.side = Side.short ∧ pos.currentStopLoss < newStopLoss
    · rw [if_pos h2]
      exact Or.inl rfl
    · rw [if_neg h2]
      by_cases hc : ({ pos with stopLossHistory := pos.stopLossHistory
          ++ [⟨pos.currentStopLoss, newStopLoss, reason, srcLLM⟩] } : Position).stopLossOrderID
            ≠ emptyOrderID ∧ o.cancelOk = true <;>
        by_cases hp : o.placeOk = true <;>
        simp [hc, hp]

/-- C2: spec-modelled floor clamp.  For a position whose initialized
ladder has at least one executed rung, the trailing-update path clamps
every proposal to the take-profit floor before submitting it, so a
committed stop change is never below the floor — hence never below
entryPrice for a long position, since every rung floor (breakeven or a
profit target) is at or above the entry; symmetrically, a short
position's committed stop never lands above the floor. -/
theorem c2_floor_clamp (pos : Position) (fills : List ℚ) (proposedStop : ℚ)
    (reason : String) (o : UpdateOutcome)
    (hk : fills ≠ [])
    (hcfg : pos.takeProfitConfig = Option.some ⟨true, markRunWith fills
      (mkLevels pos.entryPrice (|pos.entryPrice - pos.initialStopLoss|) pos.side)⟩) :
    (pos.side = Side.long →
      (applyTrailingUpdate pos proposedStop reason o).pos.currentStopLoss
        ≠ pos.currentStopLoss →
      pos.entryPrice ≤ (applyTrailingUpdate pos proposedStop reason o).pos.currentStopLoss) ∧
    (pos.side = Side.short →
      (applyTrailingUpdate pos proposedStop reason o).pos.currentStopLoss
        ≠ pos.currentStopLoss →
      (applyTrailingUpdate pos proposedStop reason o).pos.currentStopLoss
        ≤ (getMinimumStopLoss pos).1) := by
  have hrd : 0 ≤ |pos.entryPrice - pos.initialStopLoss| := abs_nonneg _
  constructor
  · intro hside hne
    rw [hside] at hcfg
    have hfl : ∃ f, getMinimumStopLoss pos = (f, true) ∧ pos.entryPrice ≤ f := by
      rcases fills with _ | ⟨f1, _ | ⟨f2, _ | ⟨f3, fs⟩⟩⟩
      · exact absurd rfl hk
      · refine ⟨pos.entryPrice, ?_, le_refl _⟩
        simp [getMinimumStopLoss, hcfg, mkLevels, markRunWith, markRunWith_nil, lastExecutedRun]
      · refine ⟨pos.entryPrice + |pos.entryPrice - pos.initialStopLoss| * 1, ?_, by linarith⟩
        simp [getMinimumStopLoss, hcfg, mkLevels, markRunWith, markRunWith_nil, lastExecutedRun]
      · refine ⟨pos.entryPrice + |pos.entryPrice - pos.initialStopLoss| * 2, ?_, by linarith⟩
        simp [getMinimumStopLoss, hcfg, mkLevels, markRunWith, markRunWith_nil, lastExecutedRun]
    obtain ⟨f, hf, hef⟩ := hfl
    have hstep : applyTrailingUpdate pos proposedStop reason o
        = updateStopLoss pos (max proposedStop f) reason o := by
      simp [applyTrailingUpdate, hf, clampToFloor, hside]
    rw [hstep] at hne ⊢
    rcases updateStopLoss_stop_cases pos (max proposedStop f) reason o with hcase | hcase
    · exact absurd hcase hne
    · rw [hcase]
      exact le_trans hef (le_max_right _ _)
  · intro hside hne
    rw [hside] at hcfg
    have hfl : ∃ f, getMinimumStopLoss pos = (f, true) := by
      rcases fills with _ | ⟨f1, _ | ⟨f2, _ | ⟨f3, fs⟩⟩⟩
      · exact absurd rfl hk
      · exact ⟨pos.entryPrice,
          by simp [getMinimumStopLoss, hcfg, mkLevels, markRunWith, markRunWith_nil, lastExecutedRun]⟩
      · exact ⟨pos.entryPrice - |pos.entryPrice - pos.initialStopLoss| * 1,
          by simp [getMinimumStopLoss, hcfg, mkLevels, markRunWith, markRunWith_nil, lastExecutedRun]⟩
      · exact ⟨pos.entryPrice - |pos.entryPrice - pos.initialStopLoss| * 2,
          by simp [getMinimumStopLoss, hcfg, mkLevels, markRunWith, markRunWith_nil, lastExecutedRun]⟩
    obtain ⟨f, hf⟩ := hfl
    have hstep : applyTrailingUpdate pos proposedStop reason o
        = updateStopLoss pos (min proposedStop f) reason o := by
      simp [applyTrailingUpdate, hf, clampToFloor, hside]
    rw [hstep] at hne ⊢
    rw [hf]
    rcases updateStopLoss_stop_cases pos (min proposedStop f) reason o with hcase | hcase
    · exact absurd hcase hne
    · rw [hcase]
      exact min_le_right _ _

theorem mkLevels_pairwise (entryPrice riskDistance : ℚ) (side : Side)
    (h : 0 ≤ riskDistance) :
    List.Pairwise (levelTargetsLE side) (mkLevels entryPrice riskDistance side) := by
  cases side <;>
    simp [mkLevels, levelTargetsLE, List.pairwise_cons] <;>
    refine ⟨⟨?_, ?_⟩, ?_⟩ <;> linarith

/-- Complete case analysis of the rung scan: either every rung is passed
over and nothing changes, or the list splits as pre ++ lvl :: post with
every rung of pre passed over and lvl the first firing rung, which is
either marked executed (close succeeded) or left untouched with an
error (close failed). -/
theorem execLevels_characterization (side : Side) (currentPrice : ℚ) (o : TickOutcome)
    (qty : ℚ) (levels : List TakeProfitLevel) :
    (execLevels side currentPrice o qty levels = Except.ok (levels, qty, 0) ∧
      ∀ lvl ∈ levels, skipLevel side currentPrice lvl) ∨
    (∃ pre lvl post, levels = pre ++ lvl :: post ∧
      (∀ l ∈ pre, skipLevel side currentPrice l) ∧
      ¬ skipLevel side currentPrice lvl ∧
      ((o.closeOk = true ∧ execLevels side currentPrice o qty levels
          = Except.ok (pre ++ { lvl with executed := true, executedPrice := o.fillPrice } :: post,
              qty - qty * lvl.percentage, 1)) ∨
       (o.closeOk = false ∧
          execLevels side currentPrice o qty levels = Except.error errTPFailed))) := by
  induction levels with
  | nil => exact Or.inl ⟨rfl, by simp⟩
  | cons lvl rest ih =>
      by_cases hskip : skipLevel side currentPrice lvl
      · rcases ih with ⟨heq, hall⟩ | ⟨pre, l0, post, hsplit, hpre, hl0, hres⟩
        · refine Or.inl ⟨?_, ?_⟩
          · simp [execLevels, hskip, heq]
          · intro l hl
            rcases List.mem_cons.mp hl with rfl | hl
            · exact hskip
            · exact hall l hl
        · refine Or.inr ⟨lvl :: pre, l0, post, by rw [hsplit, List.cons_append], ?_, hl0, ?_⟩
          · intro l hl
            rcases List.mem_cons.mp hl with rfl | hl
            · exact hskip
            · exact hpre l hl
          · rcases hres with ⟨hok, heq⟩ | ⟨hok, heq⟩
            · exact Or.inl ⟨hok, by simp [execLevels, hskip, heq, List.cons_append]⟩
            · exact Or.inr ⟨hok, by simp [execLevels, hskip, heq]⟩
      · by_cases hok : o.closeOk = true
        · exact Or.inr ⟨[], lvl, rest, rfl, by simp, hskip,
            Or.inl ⟨hok, by simp [execLevels, hskip, hok]⟩⟩
        · exact Or.inr ⟨[], lvl, rest, rfl, by simp, hskip,
            Or.inr ⟨by simpa using hok, by simp [execLevels, hskip, hok]⟩⟩

/-- C8: one call of the ladder evaluation on a position whose active
ladder has side-appropriately ordered targets executes at most one rung,
and either leaves the ladder unchanged or marks exactly one previously
unexecuted rung executed, all of whose predecessors had already
executed — so no rung ever executes twice and execution is strictly in
ascending level order. -/
theorem c8_one_rung_in_order (pos : Position) (currentPrice : ℚ) (o : TickOutcome)
    (L : List TakeProfitLevel)
    (hcfg : pos.takeProfitConfig = Option.some ⟨true, L⟩)
    (hord : List.Pairwise (levelTargetsLE pos.side) L) :
    (monitorAndExecute pos currentPrice o).2.1 ≤ 1 ∧
    ((monitorAndExecute pos currentPrice o).1.takeProfitConfig = Option.some ⟨true, L⟩ ∨
      ∃ pre lvl post, L = pre ++ lvl :: post ∧
        (monitorAndExecute pos currentPrice o).1.takeProfitConfig
          = Option.some ⟨true,
              pre ++ { lvl with executed := true, executedPrice := o.fillPrice } :: post⟩ ∧
        lvl.executed = false ∧
        (∀ l ∈ pre, l.executed = true)) := by
  rcases execLevels_characterization pos.side currentPrice o pos.quantity L with
    ⟨heq, hall⟩ | ⟨pre, lvl, post, hsplit, hpre, hlvl, hres⟩
  · have hm1 : (monitorAndExecute pos currentPrice o).2.1 = 0 := by
      simp [monitorAndExecute, hcfg, heq]
    have hm2 : (monitorAndExecute pos currentPrice o).1.takeProfitConfig
        = Option.some ⟨true, L⟩ := by
      simp [monitorAndExecute, hcfg, heq]
    exact ⟨hm1 ▸ Nat.zero_le 1, Or.inl hm2⟩
  · simp only [skipLevel, not_or, Bool.not_eq_true, Bool.not_eq_false] at hlvl
    obtain ⟨hexec, hreached⟩ := hlvl
    have hpreexec : ∀ l ∈ pre, l.executed = true := by
      intro l hl
      rcases hpre l hl with h | h
      · exact h
      · exfalso
        have hrel : levelTargetsLE pos.side l lvl := by
          have hp := (List.pairwise_append.mp (hsplit ▸ hord)).2.2
          exact hp l hl lvl (by simp)
        cases hside : pos.side
        case long =>
          rw [hside] at hrel
          unfold levelTargetsLE at hrel
          unfold targetReached at h hreached
          rw [hside] at h hreached
          simp only [decide_eq_false_iff_not, not_le, ge_iff_le] at h
          simp only [decide_eq_true_eq, ge_iff_le] at hreached
          exact absurd (le_trans hrel hreached) (not_le.mpr h)
        case short =>
          rw [hside] at hrel
          unfold levelTargetsLE at hrel
          unfold targetReached at h hreached
          rw [hside] at h hreached
          simp only [decide_eq_false_iff_not, not_le] at h
          simp only [decide_eq_true_eq] at hreached
          exact absurd (le_trans hreached hrel) (not_le.mpr h)
    rcases hres with ⟨hok, heq⟩ | ⟨hok, heq⟩
    · have hm : (monitorAndExecute pos currentPrice o).2.1 = 1 ∧
          (monitorAndExecute pos currentPrice o).1.takeProfitConfig
            = Option.some ⟨true,
                pre ++ { lvl with executed := true, executedPrice := o.fillPrice } :: post⟩ := by
        constructor <;> simp [monitorAndExecute, hcfg, heq]
      exact ⟨le_of_eq hm.1, Or.inr ⟨pre, lvl, post, hsplit, hm.2, hexec, hpreexec⟩⟩
    · have hm : (monitorAndExecute pos currentPrice o).2.1 = 0 ∧
          (monitorAndExecute pos currentPrice o).1.takeProfitConfig
            = pos.takeProfitConfig := by
        constructor <;> simp [monitorAndExecute, hcfg, heq]
      exact ⟨hm.1 ▸ Nat.zero_le 1, Or.inl (hm.2.trans hcfg)⟩

/-- C8 witness: a single evaluation of the freshly initialized ladder at
price 115 executes at most one rung and only in order. -/
theorem c8_one_rung_in_order_witness :
    (monitorAndExecute c8Position 115 ⟨true, 115⟩).2.1 ≤ 1 :=
  (c8_one_rung_in_order c8Position 115 ⟨true, 115⟩
    (mkLevels 100 (|100 - 90|) Side.long) rfl
    (mkLevels_pairwise 100 (|100 - 90|) Side.long (abs_nonneg _))).1

theorem lastExecutedRun_head_false (L : List TakeProfitLevel)
    (h : ∀ l ∈ L, l.executed = false) :
    lastExecutedRun L = Option.none := by
  cases L with
  | nil => rfl
  | cons lvl rest =>
      have hl := h lvl (by simp)
      simp [lastExecutedRun, hl]

theorem lastExecutedRun_concat (pre : List TakeProfitLevel) (lvl : TakeProfitLevel)
    (post : List TakeProfitLevel)
    (hpre : ∀ l ∈ pre, l.executed = true) (hlvl : lvl.executed = true)
    (hpost : ∀ l ∈ post, l.executed = false) :
    lastExecutedRun (pre ++ lvl :: post) = Option.some lvl := by
  induction pre with
  | nil =>
      simp only [List.nil_append]
      simp [lastExecutedRun, hlvl, lastExecutedRun_head_false post hpost]
  | cons p ps ih =>
      have hp := hpre p (by simp)
      have ih2 := ih (fun l hl => hpre l (by simp [hl]))
      simp [lastExecutedRun, hp, ih2]

/-- C9: on a ladder whose executed flags are downward closed (the shape
every reachable ladder has), the floor query returns the newStopLoss of
the highest-index executed rung and reports no floor when none has
executed; and for an initialized ladder the stored newStopLoss values
are the entry price for rung 1 and the previous rung's target price for
rungs 2 and 3. -/
theorem c9_floor_query (pos : Position) (L pre post : List TakeProfitLevel)
    (lvl : TakeProfitLevel) (entryPrice riskDistance : ℚ) (side : Side)
    (hcfg : pos.takeProfitConfig = Option.some ⟨true, L⟩)
    (hdc : executedDownclosed L) :
    ((∀ l ∈ L, l.executed = false) → getMinimumStopLoss pos = (0, false)) ∧
    (L = pre ++ lvl :: post → lvl.executed = true → (∀ l ∈ post, l.executed = false) →
      getMinimumStopLoss pos = (lvl.newStopLoss, true)) ∧
    (mkLevels entryPrice riskDistance side).map (fun l => l.newStopLoss)
      = entryPrice
          :: ((mkLevels entryPrice riskDistance side).map (fun l => l.targetPrice)).take 2 := by
  refine ⟨?_, ?_, ?_⟩
  · intro h
    simp [getMinimumStopLoss, hcfg, lastExecutedRun_head_false L h]
  · intro hsplit hexec hpost
    have hpre : ∀ l ∈ pre, l.executed = true := by
      have hp := (List.pairwise_append.mp (hsplit ▸ hdc)).2.2
      exact fun l hl => hp l hl lvl (by simp) hexec
    simp [getMinimumStopLoss, hcfg, hsplit,
      lastExecutedRun_concat pre lvl post hpre hexec hpost]
  · cases side <;> simp [mkLevels]

/-- C9 witness: with exactly rung 1 executed, the floor query returns
rung 1's newStopLoss (the breakeven entry price) and reports a floor. -/
theorem c9_floor_query_witness :
    getMinimumStopLoss c9Position = (c9Rung1.newStopLoss, true) :=
  (c9_floor_query c9Position c9Ladder [] [c9Rung2, c9Rung3] c9Rung1 100 (|100 - 90|)
    Side.long rfl
    (by simp [executedDownclosed, c9Ladder, markRunWith, mkLevels, List.pairwise_cons])).2.1
    rfl rfl (by decide)

/-- C2 witness: proposing a trailing stop of 95 (below the rung-1 floor
of 100) on the concrete position commits a stop no lower than the entry
price. -/
theorem c2_floor_clamp_witness :
    c2Position.entryPrice ≤ (applyTrailingUpdate c2Position 95 c2Reason
      ⟨true, true, c2OrderID⟩).pos.currentStopLoss :=
  (c2_floor_clamp c2Position c2Fills 95 c2Reason ⟨true, true, c2OrderID⟩
    (by simp [c2Fills]) rfl).1 rfl (by decide)

/-- C3 witness: a concrete accepted update followed by a tick leaves the
stop of the long position no lower than where it started. -/
theorem c3_stop_monotone_witness :
    c3Position.currentStopLoss ≤ c3Final.currentStopLoss :=
  (c3_stop_monotone
    [ManagerOp.updateStop 49000 c3Reason ⟨true, true, c3OrderID⟩,
     ManagerOp.priceTick 60000 ⟨true, 60000⟩]
    c3Position c3Final rfl).2.1 rfl

/-- C10 witness: a favorable update whose order placement fails errors
out with the stop unchanged but the history entry already appended. -/
theorem c10_history_not_atomic_witness :
    (updateStopLoss c10Position 49000 c10Reason ⟨true, false, c10OrderID⟩).error
      = Option.some errPlaceFailed ∧
    (updateStopLoss c10Position 49000 c10Reason ⟨true, false, c10OrderID⟩).pos.currentStopLoss
      = c10Position.currentStopLoss ∧
    (updateStopLoss c10Position 49000 c10Reason ⟨true, false, c10OrderID⟩).pos.stopLossHistory
      = c10Position.stopLossHistory
          ++ [⟨c10Position.currentStopLoss, 49000, c10Reason, srcLLM⟩] :=
  c10_history_not_atomic c10Position 49000 c10Reason ⟨true, false, c10OrderID⟩
    (by decide) (by decide) rfl

end TradingBot

